/-
Verification of the palette-finding pipeline (src/palette.cpp) against its
natural-language specification.

The C++ source is shallowly embedded: the global `init_values` struct becomes
`InitValues`, `read_settings` becomes a pure function over the list of lines of
the settings file, `setwin`, `create_palette` and `bincount` become Lean
functions, the thresholding loop over the correlation surface becomes
`thresholdLoc`, and the deduplication loop at the end of `main` becomes
`dedup`.  Floating-point scores and colors are modelled as rationals; C++
`int` values as `Int` with explicit range checks where the source's behaviour
depends on them.
-/
import Mathlib

namespace FindingPalette

/-- The global `init_values` struct of palette.cpp (lines 24-36), with its
compiled-in member initializers as defaults.  `colors` has no initializer in
the source; it is assigned in `main` before first use, and we model its
pre-`main` indeterminate value as 0. -/
structure InitValues where
  n_clusters : Int
  resize : Int
  win_w : Int
  win_h : Int
  color_w : Int
  color_h : Int
  colors : Int
  path : String
  threshold : ℚ
  vertical : Bool
  reverse : Bool
  deriving DecidableEq, Repr

/-- The compiled-in defaults of the `init_values` struct. -/
def defaultInitValues : InitValues :=
  { n_clusters := 6
    resize := 120
    win_w := 512
    win_h := 512
    color_w := 128
    color_h := 139
    colors := 0
    path := "../dataset/"
    threshold := 99/100
    vertical := true
    reverse := true }

/-- Accumulate the value of a decimal digit sequence, stopping at the first
non-digit (as `std::stoi` does after its first digit). -/
def digitsVal (acc : Nat) : List Char → Nat
  | [] => acc
  | c :: cs => if c.isDigit then digitsVal (acc * 10 + (c.toNat - 48)) cs else acc

/-- Parse a (sign-stripped) character list as `std::stoi` does: the first
character must be a digit, then the longest digit run is taken. -/
def parseNat? : List Char → Option Nat
  | [] => none
  | c :: cs => if c.isDigit then some (digitsVal (c.toNat - 48) cs) else none

/-- Leading-whitespace removal performed by `std::stoi` / `std::stod`. -/
def dropSpaces (l : List Char) : List Char :=
  l.dropWhile (fun c => c = ' ' ∨ c = '\t' ∨ c = '\n' ∨ c = '\r')

/-- Model of `std::stoi` on a line: skip whitespace, optional sign, require at
least one digit; `none` models the thrown `invalid_argument`, and a value
outside the `int` range models the thrown `out_of_range`. -/
def stoi? (s : String) : Option Int :=
  let signed : Option Int :=
    match dropSpaces s.toList with
    | '-' :: rest => (parseNat? rest).map (fun n => -(n : Int))
    | '+' :: rest => (parseNat? rest).map (fun n => (n : Int))
    | l => (parseNat? l).map (fun n => (n : Int))
  match signed with
  | none => none
  | some v => if -2147483648 ≤ v ∧ v ≤ 2147483647 then some v else none

/-- Fractional digits after the decimal point, as a rational in [0,1). -/
def fracVal : List Char → ℚ
  | [] => 0
  | c :: cs => if c.isDigit then ((c.toNat - 48 : ℕ) + fracVal cs) / 10 else 0

/-- Model of `std::stod` restricted to plain decimal literals
`[+|-] digits [. digits]`, the shapes a settings file threshold takes;
`none` models the thrown `invalid_argument` on a malformed line. -/
def stod? (s : String) : Option ℚ :=
  let parseAbs : List Char → Option ℚ := fun l =>
    match l with
    | c :: cs =>
      if c.isDigit then
        let ds := (c :: cs).takeWhile Char.isDigit
        let rest := (c :: cs).dropWhile Char.isDigit
        let ip : ℚ := (digitsVal 0 ds : ℕ)
        match rest with
        | '.' :: fs => some (ip + fracVal fs)
        | _ => some ip
      else none
    | [] => none
  match dropSpaces s.toList with
  | '-' :: rest => (parseAbs rest).map (fun q => -q)
  | '+' :: rest => (parseAbs rest).map (fun q => q)
  | l => (parseAbs l).map (fun q => q)

/-- `std::getline` on the modelled settings file: line `i` if it exists, the
empty string once the stream has failed (end of file / missing file). -/
def getlineAt (lines : List String) (i : Nat) : String :=
  (lines.get? i).getD ""

/-- `read_settings` (palette.cpp lines 53-103): ten values are read and
assigned in a fixed order inside one `try` block; the first line whose parse
fails throws, the broad `catch` prints a diagnostic and returns, keeping every
assignment already made.  The returned flag is `true` exactly when the catch
branch ran (the diagnostic was emitted).  Line 7 (`path`) is a plain `getline`
assignment and cannot throw. -/
def read_settings (lines : List String) (iv0 : InitValues) : InitValues × Bool :=
  match stoi? (getlineAt lines 0) with
  | none => (iv0, true)
  | some v0 =>
    let iv1 := { iv0 with n_clusters := v0 }
    match stoi? (getlineAt lines 1) with
    | none => (iv1, true)
    | some v1 =>
      let iv2 := { iv1 with resize := v1 }
      match stoi? (getlineAt lines 2) with
      | none => (iv2, true)
      | some v2 =>
        let iv3 := { iv2 with win_w := v2 }
        match stoi? (getlineAt lines 3) with
        | none => (iv3, true)
        | some v3 =>
          let iv4 := { iv3 with win_h := v3 }
          match stoi? (getlineAt lines 4) with
          | none => (iv4, true)
          | some v4 =>
            let iv5 := { iv4 with color_w := v4 }
            match stoi? (getlineAt lines 5) with
            | none => (iv5, true)
            | some v5 =>
              let iv6 := { iv5 with color_h := v5, path := getlineAt lines 6 }
              match stod? (getlineAt lines 7) with
              | none => (iv6, true)
              | some v7 =>
                let iv7 := { iv6 with threshold := v7 }
                match stoi? (getlineAt lines 8) with
                | none => (iv7, true)
                | some v8 =>
                  let iv8 := { iv7 with vertical := v8 = 1 }
                  match stoi? (getlineAt lines 9) with
                  | none => (iv8, true)
                  | some v9 => ({ iv8 with reverse := v9 = 1 }, false)

/-- The initialization prefix of `main` (palette.cpp lines 188-195):
`read_settings`, the `colors = n_clusters - 1` assignment, then the optional
command-line override of `path`. -/
def mainInit (lines : List String) (argv1 : Option String) : InitValues :=
  let iv := (read_settings lines defaultInitValues).1
  let iv := { iv with colors := iv.n_clusters - 1 }
  match argv1 with
  | some p => { iv with path := p }
  | none => iv

/-- The exact shape of the configuration after a failed settings load, one
case per value whose read can throw: the fields whose lines were read before
the failing value hold the file's values (including `path`, a plain `getline`
read together with `color_h`'s successful parse), and the failing field and
every later one retain their compiled-in defaults. -/
def settingsErrorShape (lines : List String) (iv : InitValues) : Prop :=
  (stoi? (getlineAt lines 0) = none ∧ iv = defaultInitValues) ∨
  (∃ v0, stoi? (getlineAt lines 0) = some v0 ∧
    stoi? (getlineAt lines 1) = none ∧
    iv = { defaultInitValues with n_clusters := v0 }) ∨
  (∃ v0 v1, stoi? (getlineAt lines 0) = some v0 ∧
    stoi? (getlineAt lines 1) = some v1 ∧
    stoi? (getlineAt lines 2) = none ∧
    iv = { defaultInitValues with
      n_clusters := v0
      resize := v1 }) ∨
  (∃ v0 v1 v2, stoi? (getlineAt lines 0) = some v0 ∧
    stoi? (getlineAt lines 1) = some v1 ∧
    stoi? (getlineAt lines 2) = some v2 ∧
    stoi? (getlineAt lines 3) = none ∧
    iv = { defaultInitValues with
      n_clusters := v0
      resize := v1
      win_w := v2 }) ∨
  (∃ v0 v1 v2 v3, stoi? (getlineAt lines 0) = some v0 ∧
    stoi? (getlineAt lines 1) = some v1 ∧
    stoi? (getlineAt lines 2) = some v2 ∧
    stoi? (getlineAt lines 3) = some v3 ∧
    stoi? (getlineAt lines 4) = none ∧
    iv = { defaultInitValues with
      n_clusters := v0
      resize := v1
      win_w := v2
      win_h := v3 }) ∨
  (∃ v0 v1 v2 v3 v4, stoi? (getlineAt lines 0) = some v0 ∧
    stoi? (getlineAt lines 1) = some v1 ∧
    stoi? (getlineAt lines 2) = some v2 ∧
    stoi? (getlineAt lines 3) = some v3 ∧
    stoi? (getlineAt lines 4) = some v4 ∧
    stoi? (getlineAt lines 5) = none ∧
    iv = { defaultInitValues with
      n_clusters := v0
      resize := v1
      win_w := v2
      win_h := v3
      color_w := v4 }) ∨
  (∃ v0 v1 v2 v3 v4 v5, stoi? (getlineAt lines 0) = some v0 ∧
    stoi? (getlineAt lines 1) = some v1 ∧
    stoi? (getlineAt lines 2) = some v2 ∧
    stoi? (getlineAt lines 3) = some v3 ∧
    stoi? (getlineAt lines 4) = some v4 ∧
    stoi? (getlineAt lines 5) = some v5 ∧
    stod? (getlineAt lines 7) = none ∧
    iv = { defaultInitValues with
      n_clusters := v0
      resize := v1
      win_w := v2
      win_h := v3
      color_w := v4
      color_h := v5
      path := getlineAt lines 6 }) ∨
  (∃ v0 v1 v2 v3 v4 v5 v7, stoi? (getlineAt lines 0) = some v0 ∧
    stoi? (getlineAt lines 1) = some v1 ∧
    stoi? (getlineAt lines 2) = some v2 ∧
    stoi? (getlineAt lines 3) = some v3 ∧
    stoi? (getlineAt lines 4) = some v4 ∧
    stoi? (getlineAt lines 5) = some v5 ∧
    stod? (getlineAt lines 7) = some v7 ∧
    stoi? (getlineAt lines 8) = none ∧
    iv = { defaultInitValues with
      n_clusters := v0
      resize := v1
      win_w := v2
      win_h := v3
      color_w := v4
      color_h := v5
      path := getlineAt lines 6
      threshold := v7 }) ∨
  (∃ v0 v1 v2 v3 v4 v5 v7 v8, stoi? (getlineAt lines 0) = some v0 ∧
    stoi? (getlineAt lines 1) = some v1 ∧
    stoi? (getlineAt lines 2) = some v2 ∧
    stoi? (getlineAt lines 3) = some v3 ∧
    stoi? (getlineAt lines 4) = some v4 ∧
    stoi? (getlineAt lines 5) = some v5 ∧
    stod? (getlineAt lines 7) = some v7 ∧
    stoi? (getlineAt lines 8) = some v8 ∧
    stoi? (getlineAt lines 9) = none ∧
    iv = { defaultInitValues with
      n_clusters := v0
      resize := v1
      win_w := v2
      win_h := v3
      color_w := v4
      color_h := v5
      path := getlineAt lines 6
      threshold := v7
      vertical := v8 = 1 })

/-- A 2-D integer point, as `cv::Point` (x = column, y = row). -/
structure Pt where
  x : Int
  y : Int
  deriving DecidableEq, Repr

/-- `setwin` (palette.cpp lines 110-121): the palette window extents derived
from the configuration alone. -/
def setwin (iv : InitValues) : Pt :=
  if iv.vertical then
    { x := iv.color_w, y := iv.color_h * iv.colors }
  else
    { y := iv.color_w, x := iv.color_h * iv.colors }

/-- A 3-channel color value, one row of the `centers` matrix. -/
def Color : Type := ℚ × ℚ × ℚ

instance : DecidableEq Color := by
  unfold Color
  infer_instance

/-- A raster image as its list of pixel rows (`cv::Mat`, 3-channel). -/
def Mat : Type := List (List Color)

/-- `cv::Mat(x, y, CV_8UC3, Scalar(c))`: a solid-color image with `x` rows
and `y` columns. -/
def solidMat (x y : Nat) (c : Color) : Mat :=
  List.replicate x (List.replicate y c)

/-- Number of pixel rows of an image. -/
def Mat.height (m : Mat) : Nat := List.length m

/-- Number of pixel columns of an image (length of its first row). -/
def Mat.width (m : Mat) : Nat := (List.getD m 0 []).length

/-- `cv::vconcat`: stack images top to bottom. -/
def vconcat (ms : List Mat) : Mat :=
  List.flatten ms

/-- `cv::hconcat`: place images left to right (defined for a non-empty list
of images of equal height, as the source always supplies). -/
def hconcat (ms : List Mat) : Mat :=
  match ms with
  | [] => []
  | m :: _ => (List.range m.height).map (fun i => List.flatten (ms.map (fun n => List.getD n i [])))

/-- The cell-building loop of `create_palette` (palette.cpp lines 145-152):
one solid cell per center row, for rows `0 .. centers.rows - 2`. -/
def paletteCells (x y : Nat) (centers : List Color) : List Mat :=
  (centers.take (centers.length - 1)).map (fun c => solidMat x y c)

/-- `create_palette` (palette.cpp lines 130-161): choose cell dimensions from
the orientation, build one solid cell per remaining center, optionally
reverse, then concatenate along the orientation axis. -/
def create_palette (iv : InitValues) (ver rev : Bool) (centers : List Color) : Mat :=
  let x := if ver then iv.color_h.toNat else iv.color_w.toNat
  let y := if ver then iv.color_w.toNat else iv.color_h.toNat
  let palette := paletteCells x y centers
  let palette := if rev then palette.reverse else palette
  if ver then vconcat palette else hconcat palette

/-- First channel column of a centers matrix. -/
def col0 (m : List Color) : List ℚ := m.map (fun c => c.1)

/-- Second channel column of a centers matrix. -/
def col1 (m : List Color) : List ℚ := m.map (fun c => c.2.1)

/-- Third channel column of a centers matrix. -/
def col2 (m : List Color) : List ℚ := m.map (fun c => c.2.2)

/-- Rebuild a centers matrix from its three channel columns. -/
def zip3 : List ℚ → List ℚ → List ℚ → List Color
  | a :: as, b :: bs, c :: cs => (a, b, c) :: zip3 as bs cs
  | _, _, _ => []

/-- `cv::sort(centers, centers, SORT_EVERY_COLUMN | SORT_ASCENDING)`
(palette.cpp line 228): each of the three channel columns is sorted
ascending independently; row `i` of the result takes element `i` of each
sorted column. -/
def sortEveryColumn (m : List Color) : List Color :=
  zip3 ((col0 m).insertionSort (· ≤ ·))
       ((col1 m).insertionSort (· ≤ ·))
       ((col2 m).insertionSort (· ≤ ·))

/-- `bincount` (palette.cpp lines 169-178): counts of each label value, in a
vector of length `max + 1`.  Labels are the non-negative kmeans cluster
indices, so they are modelled as naturals. -/
def bincount (labels : List Nat) : List Nat :=
  let max_value := labels.foldl Nat.max 0 + 1
  labels.foldl (fun counts label => counts.set label (counts.getD label 0 + 1))
    (List.replicate max_value 0)

/-- The thresholding loop of `main` (palette.cpp lines 242-249): scan the
correlation surface in row-major order and keep `Point(col, row)` for every
cell whose score is `>=` the threshold. -/
def thresholdLoc (res : List (List ℚ)) (thr : ℚ) : List Pt :=
  List.flatten (res.enum.map (fun rowLine =>
    rowLine.2.enum.filterMap (fun colScore =>
      if thr ≤ colScore.2 then some { x := colScore.1, y := rowLine.1 } else none)))

/-- The primary-axis coordinate used by the deduplication loop:
`pt.x` if vertical, else `pt.y` (palette.cpp lines 255-256). -/
def primaryCoord (vertical : Bool) (p : Pt) : Int :=
  if vertical then p.x else p.y

/-- One iteration of the deduplication loop (palette.cpp lines 254-263) on the
state (accepted detections so far, `temp`). -/
def dedupStep (vertical : Bool) (st : List Pt × Int) (pt : Pt) : List Pt × Int :=
  let u := primaryCoord vertical pt
  if 7 < |u - st.2| then (st.1 ++ [pt], u) else st

/-- The deduplication loop of `main` over an already-ordered candidate list:
`temp` starts at 0, a candidate is accepted (rectangle drawn) when its
primary-axis coordinate differs from `temp` by more than 7, and then `temp`
is updated.  Returns the accepted detections and the final `temp`. -/
def dedupFold (vertical : Bool) (loc : List Pt) : List Pt × Int :=
  loc.foldl (dedupStep vertical) ([], 0)

/-- The full deduplication stage (palette.cpp lines 251-263): the candidate
list is reversed first when `reverse` is set. -/
def dedup (vertical rev : Bool) (loc : List Pt) : List Pt × Int :=
  dedupFold vertical (if rev then loc.reverse else loc)

/-- `true` exactly when `main` prints "Palette not found!" for an image
(palette.cpp line 265): the final `temp` is 0. -/
def paletteNotFound (vertical rev : Bool) (loc : List Pt) : Bool :=
  (dedup vertical rev loc).2 = 0

/-- The `size_t` upper bound of the `create_palette` loop
(palette.cpp line 145): the `int` expression `centers.rows - 1` converted to
the unsigned 64-bit `size_t` of the comparison `cluster_idx < centers.rows-1`. -/
def loopBound (rows : Int) : Nat :=
  ((rows - 1) % (2 ^ 64 : Int)).toNat

/-- The separation the deduplication loop enforces between a detection `a`
and the next accepted detection `b`. -/
def gapOk (v : Bool) (a b : Pt) : Prop :=
  7 < |primaryCoord v b - primaryCoord v a|

instance (v : Bool) (a b : Pt) : Decidable (gapOk v a b) := by
  unfold gapOk
  infer_instance

/-! ### C7: `visibleColors = clusterCount - 1` after initialization -/

/-- C7: For every valid Configuration (clusterCount ≥ 2) — indeed for any
settings file and optional command-line path override — the `colors` field
equals `n_clusters - 1` after `main`'s initialization; no later component of
the per-image pipeline takes or returns a modified configuration, so the
equality persists. -/
theorem C7_visibleColors (lines : List String) (argv1 : Option String)
    (h : 2 ≤ (mainInit lines argv1).n_clusters) :
    (mainInit lines argv1).colors = (mainInit lines argv1).n_clusters - 1 := by
  cases argv1 <;> simp [mainInit]

/-- Witness for C7 at the default (missing settings file) configuration. -/
theorem C7_visibleColors_witness :
    2 ≤ (mainInit [] none).n_clusters ∧
    (mainInit [] none).colors = (mainInit [] none).n_clusters - 1 :=
  ⟨by decide, C7_visibleColors [] none (by decide)⟩

/-! ### C9: the `create_palette` loop stays in bounds when `rows ≥ 2` -/

/-- C9: under the precondition that the centers matrix has at least 2 rows
(and its row count fits in a C++ `int`), every index traversed by the
`create_palette` loop — whose `size_t` bound is the converted `int`
expression `centers.rows - 1` — is strictly below the row count, so every
`centers.at` access is in bounds. -/
theorem C9_loop_in_bounds (centers : List Color)
    (h2 : 2 ≤ centers.length) (hint : centers.length ≤ 2147483647) :
    ∀ i : Nat, i < loopBound (centers.length : Int) →
      i < centers.length ∧ (centers.get? i).isSome := by
  intro i hi
  have hlt : i < centers.length := by
    simp only [loopBound] at hi
    omega
  refine ⟨hlt, ?_⟩
  rw [List.get?_eq_get hlt]
  simp

/-- Witness for C9 on a concrete 2-row centers matrix at loop index 0. -/
theorem C9_loop_in_bounds_witness :
    2 ≤ ([(1, 2, 3), (4, 5, 6)] : List Color).length ∧
    (0 < loopBound (([(1, 2, 3), (4, 5, 6)] : List Color).length : Int) ∧
      (([(1, 2, 3), (4, 5, 6)] : List Color).get? 0).isSome) :=
  ⟨by decide,
   by
    have h := C9_loop_in_bounds [(1, 2, 3), (4, 5, 6)] (by decide) (by decide) 0
      (by decide)
    exact ⟨by decide, h.2⟩⟩

/-! ### C6: configuration state on a settings-load error -/

/-- C6 counterexample: a settings file whose first line parses as `10` and
whose second line is malformed makes `read_settings` take the error path
(diagnostic emitted) while `n_clusters` keeps the file's value 10, not the
default 6 — the configuration is *not* unchanged from the defaults. -/
theorem C6_counterexample :
    (read_settings ["10", "x"] defaultInitValues).2 = true ∧
    (read_settings ["10", "x"] defaultInitValues).1 ≠ defaultInitValues ∧
    (read_settings ["10", "x"] defaultInitValues).1.n_clusters = 10 := by
  decide

/-- C6 amended: on a settings-load error a diagnostic is emitted and the run
continues non-fatally, but the configuration is not unchanged from the
defaults: exactly the fields whose lines were read before the failing value
hold the file's values, and the failing field and every later one retain
their compiled-in defaults — the nine possible outcomes enumerated by
`settingsErrorShape`.  In particular `reverse`, the last value read, always
retains its default on any load error, and when the very first value is
unreadable (e.g. the file is missing) every field retains its default. -/
theorem C6_amended (lines : List String)
    (herr : (read_settings lines defaultInitValues).2 = true) :
    settingsErrorShape lines (read_settings lines defaultInitValues).1 := by
  unfold settingsErrorShape
  cases h0 : stoi? (getlineAt lines 0) with
  | none =>
    refine Or.inl ⟨rfl, ?_⟩
    unfold read_settings
    rw [h0]
  | some v0 =>
  cases h1 : stoi? (getlineAt lines 1) with
  | none =>
    refine Or.inr (Or.inl ⟨v0, rfl, rfl, ?_⟩)
    unfold read_settings
    rw [h0, h1]
  | some v1 =>
  cases h2 : stoi? (getlineAt lines 2) with
  | none =>
    refine Or.inr (Or.inr (Or.inl ⟨v0, v1, rfl, rfl, rfl, ?_⟩))
    unfold read_settings
    rw [h0, h1, h2]
  | some v2 =>
  cases h3 : stoi? (getlineAt lines 3) with
  | none =>
    refine Or.inr (Or.inr (Or.inr (Or.inl ⟨v0, v1, v2, rfl, rfl, rfl, rfl, ?_⟩)))
    unfold read_settings
    rw [h0, h1, h2, h3]
  | some v3 =>
  cases h4 : stoi? (getlineAt lines 4) with
  | none =>
    refine Or.inr (Or.inr (Or.inr (Or.inr (Or.inl ⟨v0, v1, v2, v3, rfl, rfl, rfl, rfl, rfl, ?_⟩))))
    unfold read_settings
    rw [h0, h1, h2, h3, h4]
  | some v4 =>
  cases h5 : stoi? (getlineAt lines 5) with
  | none =>
    refine Or.inr (Or.inr (Or.inr (Or.inr (Or.inr (Or.inl ⟨v0, v1, v2, v3, v4, rfl, rfl, rfl, rfl, rfl, rfl, ?_⟩)))))
    unfold read_settings
    rw [h0, h1, h2, h3, h4, h5]
  | some v5 =>
  cases h7 : stod? (getlineAt lines 7) with
  | none =>
    refine Or.inr (Or.inr (Or.inr (Or.inr (Or.inr (Or.inr (Or.inl ⟨v0, v1, v2, v3, v4, v5, rfl, rfl, rfl, rfl, rfl, rfl, rfl, ?_⟩))))))
    unfold read_settings
    rw [h0, h1, h2, h3, h4, h5, h7]
  | some v7 =>
  cases h8 : stoi? (getlineAt lines 8) with
  | none =>
    refine Or.inr (Or.inr (Or.inr (Or.inr (Or.inr (Or.inr (Or.inr (Or.inl ⟨v0, v1, v2, v3, v4, v5, v7, rfl, rfl, rfl, rfl, rfl, rfl, rfl, rfl, ?_⟩)))))))
    unfold read_settings
    rw [h0, h1, h2, h3, h4, h5, h7, h8]
  | some v8 =>
  cases h9 : stoi? (getlineAt lines 9) with
  | none =>
    refine Or.inr (Or.inr (Or.inr (Or.inr (Or.inr (Or.inr (Or.inr (Or.inr (⟨v0, v1, v2, v3, v4, v5, v7, v8, rfl, rfl, rfl, rfl, rfl, rfl, rfl, rfl, rfl, ?_⟩))))))))
    unfold read_settings
    rw [h0, h1, h2, h3, h4, h5, h7, h8, h9]
  | some v9 =>
  have hfalse : (read_settings lines defaultInitValues).2 = false := by
    unfold read_settings
    rw [h0, h1, h2, h3, h4, h5, h7, h8, h9]
  rw [hfalse] at herr
  exact absurd herr (by simp)

/-- Witness for C6 amended: the missing-settings-file case (no lines), where
the first read already fails and the first case of `settingsErrorShape`
applies — every field at its default. -/
theorem C6_amended_witness :
    (read_settings [] defaultInitValues).2 = true ∧
    settingsErrorShape [] (read_settings [] defaultInitValues).1 :=
  ⟨by decide, C6_amended [] (by decide)⟩

/-- Invariants of the deduplication fold, for any start state: consecutive
accepted detections are separated by more than 7, the final `temp` is the
primary coordinate of the last accepted detection, and `temp` stays 0 while
nothing is accepted. -/
lemma dedupFold_invariants (v : Bool) (loc : List Pt) (st : List Pt × Int)
    (h1 : List.Chain' (gapOk v) st.1)
    (h2 : ∀ p, st.1.getLast? = some p → primaryCoord v p = st.2)
    (h3 : st.1 = [] → st.2 = 0) :
    List.Chain' (gapOk v) (loc.foldl (dedupStep v) st).1 ∧
    (∀ p, (loc.foldl (dedupStep v) st).1.getLast? = some p →
      primaryCoord v p = (loc.foldl (dedupStep v) st).2) ∧
    ((loc.foldl (dedupStep v) st).1 = [] → (loc.foldl (dedupStep v) st).2 = 0) := by
  induction loc generalizing st with
  | nil => exact ⟨h1, h2, h3⟩
  | cons pt rest ih =>
    simp only [List.foldl_cons]
    by_cases hacc : 7 < |primaryCoord v pt - st.2|
    · have hstep : dedupStep v st pt = (st.1 ++ [pt], primaryCoord v pt) := by
        simp [dedupStep, hacc]
      rw [hstep]
      apply ih
      · rw [List.chain'_append]
        refine ⟨h1, List.chain'_singleton _, ?_⟩
        intro x hx y hy
        have hx' : st.1.getLast? = some x := hx
        obtain rfl : y = pt := by simpa [eq_comm] using hy
        have := h2 x hx'
        simp only [gapOk, this]
        exact hacc
      · intro p hp
        rw [List.getLast?_concat] at hp
        cases hp
        rfl
      · intro hempty
        exact absurd hempty (by simp)
    · have hstep : dedupStep v st pt = st := by
        simp [dedupStep, hacc]
      rw [hstep]
      exact ih _ h1 h2 h3

/-- The same invariants stated for the full deduplication stage. -/
lemma dedup_invariants (v rev : Bool) (loc : List Pt) :
    List.Chain' (gapOk v) (dedup v rev loc).1 ∧
    (∀ p, (dedup v rev loc).1.getLast? = some p →
      primaryCoord v p = (dedup v rev loc).2) ∧
    ((dedup v rev loc).1 = [] → (dedup v rev loc).2 = 0) := by
  unfold dedup dedupFold
  exact dedupFold_invariants v _ ([], 0) (by simp) (by simp) (fun _ => rfl)

/-! ### C1: pairwise separation of accepted detections -/

/-- C1 counterexample: on the candidate sequence (10,0), (30,0), (12,1) —
a row-major surface scan — the loop accepts all three candidates, and the
first and third accepted detections have primary-axis coordinates 10 and 12,
which differ by only 2 ≤ 7: the separation holds only between consecutive
accepted detections, not between every pair. -/
theorem C1_counterexample :
    ∃ p ∈ (dedup true false [⟨10, 0⟩, ⟨30, 0⟩, ⟨12, 1⟩]).1,
      ∃ q ∈ (dedup true false [⟨10, 0⟩, ⟨30, 0⟩, ⟨12, 1⟩]).1,
        p ≠ q ∧ |primaryCoord true p - primaryCoord true q| ≤ 7 := by
  decide

/-- C1 amended: for every candidate sequence, any two *consecutively*
accepted Detections have primary-axis coordinates that differ by strictly
more than 7 pixels (the loop only compares each candidate with the most
recently accepted detection, so no guarantee holds for non-adjacent pairs). -/
theorem C1_consecutive_separation (vertical rev : Bool) (loc : List Pt) :
    List.Chain' (gapOk vertical) (dedup vertical rev loc).1 :=
  (dedup_invariants vertical rev loc).1

/-! ### C2: the "Palette not found!" outcome -/

/-- C2 counterexample: on the candidate sequence (10,0), (0,1) the loop
accepts both candidates (coordinates 10 then 0), yet the final `temp` is 0,
so "Palette not found!" is printed even though two detections were drawn —
the report does not coincide with zero accepted detections. -/
theorem C2_counterexample :
    paletteNotFound true false [⟨10, 0⟩, ⟨0, 1⟩] = true ∧
    (dedup true false [⟨10, 0⟩, ⟨0, 1⟩]).1.length = 2 := by
  decide

/-- C2 amended: "Palette not found!" is reported iff either no detection was
accepted, or the *last* accepted detection has primary-axis coordinate
exactly 0 (the sentinel collision the spec flags as an open ambiguity). -/
theorem C2_not_found_iff (vertical rev : Bool) (loc : List Pt) :
    paletteNotFound vertical rev loc = true ↔
      ((dedup vertical rev loc).1 = [] ∨
        ∃ p, (dedup vertical rev loc).1.getLast? = some p ∧
          primaryCoord vertical p = 0) := by
  have hinv := dedup_invariants vertical rev loc
  constructor
  · intro ht
    have ht0 : (dedup vertical rev loc).2 = 0 := by
      simpa [paletteNotFound] using ht
    cases heq : (dedup vertical rev loc).1.getLast? with
    | none =>
      left
      exact List.getLast?_eq_none_iff.mp heq
    | some p =>
      right
      exact ⟨p, rfl, by rw [hinv.2.1 p heq, ht0]⟩
  · intro hor
    have ht0 : (dedup vertical rev loc).2 = 0 := by
      rcases hor with hemp | ⟨p, hp, hp0⟩
      · exact hinv.2.2 hemp
      · rw [← hinv.2.1 p hp, hp0]
    simp [paletteNotFound, ht0]

/-! ### C8: no first detection within the merge radius of 0 -/

/-- Head invariant of the deduplication fold: when every candidate's primary
coordinate is non-negative, the first accepted detection has primary
coordinate strictly greater than 7 (the initial `temp = 0` acts as a virtual
detection at coordinate 0). -/
lemma dedupFold_head_gt (v : Bool) (loc : List Pt) (st : List Pt × Int)
    (hnn : ∀ p ∈ loc, 0 ≤ primaryCoord v p)
    (h3 : st.1 = [] → st.2 = 0)
    (h4 : ∀ p, st.1.head? = some p → 7 < primaryCoord v p) :
    ∀ p, (loc.foldl (dedupStep v) st).1.head? = some p → 7 < primaryCoord v p := by
  induction loc generalizing st with
  | nil => exact h4
  | cons pt rest ih =>
    simp only [List.foldl_cons]
    have hnn' : ∀ p ∈ rest, 0 ≤ primaryCoord v p :=
      fun p hp => hnn p (List.mem_cons_of_mem _ hp)
    by_cases hacc : 7 < |primaryCoord v pt - st.2|
    · have hstep : dedupStep v st pt = (st.1 ++ [pt], primaryCoord v pt) := by
        simp [dedupStep, hacc]
      rw [hstep]
      apply ih _ hnn'
      · intro hempty
        exact absurd hempty (by simp)
      · intro p hp
        cases hst : st.1 with
        | nil =>
          rw [hst] at hp
          simp only [List.nil_append, List.head?_cons, Option.some.injEq] at hp
          subst hp
          have htemp : st.2 = 0 := h3 hst
          rw [htemp] at hacc
          have hpt : 0 ≤ primaryCoord v pt := hnn pt (List.mem_cons_self _ _)
          rw [sub_zero] at hacc
          rw [abs_of_nonneg hpt] at hacc
          exact hacc
        | cons a tl =>
          rw [hst] at hp
          simp only [List.cons_append, List.head?_cons, Option.some.injEq] at hp
          subst hp
          apply h4
          rw [hst]
          rfl
    · have hstep : dedupStep v st pt = st := by
        simp [dedupStep, hacc]
      rw [hstep]
      exact ih _ hnn' h3 h4

/-- C8: for every candidate sequence with non-negative primary-axis
coordinates (as produced by the surface scan), the first accepted Detection
has primary-axis coordinate strictly greater than 7: because `temp` starts
at 0, every candidate within 7 pixels of coordinate 0 is discarded until a
candidate beyond 7 has been accepted. -/
theorem C8_first_detection (vertical rev : Bool) (loc : List Pt)
    (hnn : ∀ p ∈ loc, 0 ≤ primaryCoord vertical p) :
    ∀ p, (dedup vertical rev loc).1.head? = some p →
      7 < primaryCoord vertical p := by
  unfold dedup dedupFold
  apply dedupFold_head_gt
  · intro p hp
    apply hnn
    split at hp
    · exact List.mem_reverse.mp hp
    · exact hp
  · intro _
    rfl
  · intro p hp
    simp at hp

/-- Witness for C8: candidates at primary coordinates 5 then 10; the first
accepted detection is the one at 10 > 7 (the candidate at 5 is discarded). -/
theorem C8_first_detection_witness :
    (∀ p ∈ ([⟨5, 0⟩, ⟨10, 0⟩] : List Pt), 0 ≤ primaryCoord true p) ∧
    7 < primaryCoord true ⟨10, 0⟩ :=
  ⟨by decide,
   C8_first_detection true false [⟨5, 0⟩, ⟨10, 0⟩] (by decide) ⟨10, 0⟩ (by decide)⟩

/-! ### C4: inclusive thresholding of the correlation surface -/

/-- C4: a surface cell becomes a match candidate exactly when its score is
`>=` the similarity threshold; in particular a score exactly equal to the
threshold is accepted.  `res[row]?` is the surface row, `s` the score at
`(row, col)`, and the candidate is emitted as `Point(col, row)`. -/
theorem C4_threshold_inclusive (res : List (List ℚ)) (thr : ℚ) (row col : Nat)
    (ln : List ℚ) (s : ℚ)
    (hrow : res[row]? = some ln) (hcol : ln[col]? = some s) :
    (Pt.mk (col : Int) (row : Int) ∈ thresholdLoc res thr) ↔ thr ≤ s := by
  unfold thresholdLoc
  rw [List.mem_flatten]
  constructor
  · rintro ⟨l, hl, hpl⟩
    rw [List.mem_map] at hl
    obtain ⟨⟨i, ln2⟩, hmem, rfl⟩ := hl
    rw [List.mk_mem_enum_iff_getElem?] at hmem
    rw [List.mem_filterMap] at hpl
    obtain ⟨⟨j, sc⟩, hjs, hif⟩ := hpl
    rw [List.mk_mem_enum_iff_getElem?] at hjs
    by_cases hth : thr ≤ sc
    · rw [if_pos hth] at hif
      injection hif with hif
      have hj : (j : Int) = (col : Int) := congrArg Pt.x hif
      have hi : (i : Int) = (row : Int) := congrArg Pt.y hif
      have hj' : j = col := by exact_mod_cast hj
      have hi' : i = row := by exact_mod_cast hi
      subst hj' hi'
      rw [hmem] at hrow
      injection hrow with hrow
      subst hrow
      rw [hjs] at hcol
      injection hcol with hcol
      subst hcol
      exact hth
    · rw [if_neg hth] at hif
      exact absurd hif (by simp)
  · intro hth
    refine ⟨ln.enum.filterMap (fun colScore =>
        if thr ≤ colScore.2 then some { x := colScore.1, y := (row : Int) } else none),
      List.mem_map.mpr ⟨(row, ln), List.mk_mem_enum_iff_getElem?.mpr hrow, rfl⟩, ?_⟩
    rw [List.mem_filterMap]
    exact ⟨(col, s), List.mk_mem_enum_iff_getElem?.mpr hcol, by rw [if_pos hth]⟩

/-- Witness for C4 at the threshold boundary: a 1×1 surface whose single
score equals the threshold 99/100; the cell is accepted. -/
theorem C4_threshold_inclusive_witness :
    ([[(99 : ℚ)/100]] : List (List ℚ))[0]? = some [(99 : ℚ)/100] ∧
    ([(99 : ℚ)/100] : List ℚ)[0]? = some ((99 : ℚ)/100) ∧
    Pt.mk ((0 : ℕ) : ℤ) ((0 : ℕ) : ℤ) ∈ thresholdLoc [[(99 : ℚ)/100]] ((99 : ℚ)/100) :=
  ⟨rfl, rfl,
   (C4_threshold_inclusive [[(99 : ℚ)/100]] ((99 : ℚ)/100) 0 0 [(99 : ℚ)/100]
      ((99 : ℚ)/100) rfl rfl).mpr (le_refl _)⟩

/-! ### C10: `bincount` -/

/-- Every element of a list of naturals is bounded by the running
`foldl Nat.max` of the list. -/
lemma mem_le_foldl_max (l : List Nat) (acc : Nat) :
    acc ≤ l.foldl Nat.max acc ∧ ∀ x ∈ l, x ≤ l.foldl Nat.max acc := by
  induction l generalizing acc with
  | nil => simp
  | cons a rest ih =>
    refine ⟨le_trans (le_max_left acc a) (ih (Nat.max acc a)).1, ?_⟩
    intro x hx
    rcases List.mem_cons.mp hx with rfl | hx'
    · exact le_trans (le_max_right acc x) (ih (Nat.max acc x)).1
    · exact (ih (Nat.max acc a)).2 x hx'

/-- The running `foldl Nat.max` never exceeds an upper bound of the list. -/
lemma foldl_max_le (l : List Nat) (acc m : Nat) (hacc : acc ≤ m)
    (h : ∀ x ∈ l, x ≤ m) : l.foldl Nat.max acc ≤ m := by
  induction l generalizing acc with
  | nil => exact hacc
  | cons a rest ih =>
    exact ih (Nat.max acc a)
      (max_le hacc (h a (List.mem_cons_self _ _)))
      (fun x hx => h x (List.mem_cons_of_mem _ hx))

/-- The `*max_element` expression of `bincount` computes the list maximum. -/
lemma foldl_max_eq_maximum (l : List Nat) (m : Nat) (h : l.maximum = some m) :
    l.foldl Nat.max 0 = m := by
  have h' := List.maximum_eq_coe_iff.mp h
  exact le_antisymm
    (foldl_max_le l 0 m (Nat.zero_le m) h'.2)
    ((mem_le_foldl_max l 0).2 m h'.1)

/-- Incrementing one in-bounds counter adds the matching indicator to every
slot read through `getD`. -/
lemma set_getD_incr (counts : List Nat) (l i : Nat) (hl : l < counts.length) :
    (counts.set l (counts.getD l 0 + 1)).getD i 0 =
      counts.getD i 0 + (if i = l then 1 else 0) := by
  induction counts generalizing l i with
  | nil => simp at hl
  | cons c cs ih =>
    cases l with
    | zero =>
      cases i with
      | zero => simp [List.getD]
      | succ i' => simp [List.getD]
    | succ l' =>
      cases i with
      | zero => simp [List.getD]
      | succ i' =>
        have hl' : l' < cs.length := Nat.lt_of_succ_lt_succ hl
        have := ih l' i' hl'
        simpa [List.getD] using this

/-- Incrementing one in-bounds counter increments the total sum by one. -/
lemma set_sum_incr (counts : List Nat) (l : Nat) (hl : l < counts.length) :
    (counts.set l (counts.getD l 0 + 1)).sum = counts.sum + 1 := by
  induction counts generalizing l with
  | nil => simp at hl
  | cons c cs ih =>
    cases l with
    | zero => simp [List.getD]; omega
    | succ l' =>
      have hl' : l' < cs.length := Nat.lt_of_succ_lt_succ hl
      have hstep : (c :: cs).getD (l' + 1) 0 = cs.getD l' 0 := rfl
      show (c :: cs.set l' ((c :: cs).getD (l' + 1) 0 + 1)).sum = (c :: cs).sum + 1
      rw [hstep, List.sum_cons, ih l' hl', List.sum_cons]
      omega

/-- Reading any slot of an all-zero counter vector through `getD` gives 0. -/
lemma getD_replicate_zero (n i : Nat) : (List.replicate n (0 : Nat)).getD i 0 = 0 := by
  induction n generalizing i with
  | zero => simp [List.getD]
  | succ k ih =>
    cases i with
    | zero => simp [List.getD, List.replicate]
    | succ i' =>
      have : (List.replicate (k + 1) (0 : Nat)).getD (i' + 1) 0 =
          (List.replicate k (0 : Nat)).getD i' 0 := rfl
      rw [this, ih]

/-- Invariants of the counting fold of `bincount`: the counter vector keeps
its length, each slot gains the number of occurrences of its index, and the
total gains the number of labels — provided every label is in bounds. -/
lemma bincount_fold (labels counts : List Nat) :
    (labels.foldl (fun counts label => counts.set label (counts.getD label 0 + 1))
        counts).length = counts.length ∧
    ((∀ x ∈ labels, x < counts.length) →
      (∀ i, (labels.foldl (fun counts label =>
          counts.set label (counts.getD label 0 + 1)) counts).getD i 0 =
        counts.getD i 0 + labels.count i) ∧
      (labels.foldl (fun counts label =>
          counts.set label (counts.getD label 0 + 1)) counts).sum =
        counts.sum + labels.length) := by
  induction labels generalizing counts with
  | nil => simp
  | cons a rest ih =>
    simp only [List.foldl_cons]
    set counts' := counts.set a (counts.getD a 0 + 1) with hc
    have hlen : counts'.length = counts.length := by simp [hc]
    refine ⟨by rw [(ih counts').1, hlen], ?_⟩
    intro hbound
    have ha : a < counts.length := hbound a (List.mem_cons_self _ _)
    have hbound' : ∀ x ∈ rest, x < counts'.length := by
      intro x hx
      rw [hlen]
      exact hbound x (List.mem_cons_of_mem _ hx)
    obtain ⟨hgd, hsum⟩ := (ih counts').2 hbound'
    constructor
    · intro i
      rw [hgd i, hc, set_getD_incr counts a i ha, List.count_cons]
      by_cases hia : i = a <;> simp [hia] <;> omega
    · rw [hsum, hc, set_sum_incr counts a ha]
      simp
      omega

/-- C10: for every non-empty list of (non-negative) labels — non-emptiness
expressed as the existence of the maximum `m` that `*max_element`
dereferences — `bincount` returns a vector of length `m + 1`, every counting
access is in bounds, slot `i` holds the number of occurrences of label `i`,
and the slots sum to the number of labels. -/
theorem C10_bincount (labels : List Nat) (m : Nat)
    (hmax : labels.maximum = some m) :
    (bincount labels).length = m + 1 ∧
    (∀ x ∈ labels, x < (bincount labels).length) ∧
    (∀ i, (bincount labels).getD i 0 = labels.count i) ∧
    (bincount labels).sum = labels.length := by
  have hM : labels.foldl Nat.max 0 = m := foldl_max_eq_maximum labels m hmax
  have hb := bincount_fold labels (List.replicate (labels.foldl Nat.max 0 + 1) 0)
  have hbound : ∀ x ∈ labels, x < (List.replicate (labels.foldl Nat.max 0 + 1) 0).length := by
    intro x hx
    rw [List.length_replicate]
    exact Nat.lt_succ_of_le ((mem_le_foldl_max labels 0).2 x hx)
  obtain ⟨hgd, hsum⟩ := hb.2 hbound
  have hlen : (bincount labels).length = m + 1 := by
    unfold bincount
    rw [hb.1, List.length_replicate, hM]
  refine ⟨hlen, ?_, ?_, ?_⟩
  · intro x hx
    rw [hlen]
    exact Nat.lt_succ_of_le (hM ▸ (mem_le_foldl_max labels 0).2 x hx)
  · intro i
    unfold bincount
    rw [hgd i, getD_replicate_zero]
    omega
  · unfold bincount
    rw [hsum]
    simp

/-- Witness for C10 on the labels [2, 0, 2, 2]: maximum 2, counts [1, 0, 3]. -/
theorem C10_bincount_witness :
    ([2, 0, 2, 2] : List Nat).maximum = some 2 ∧
    ((bincount [2, 0, 2, 2]).length = 2 + 1 ∧
      (∀ x ∈ ([2, 0, 2, 2] : List Nat), x < (bincount [2, 0, 2, 2]).length) ∧
      (∀ i, (bincount [2, 0, 2, 2]).getD i 0 = ([2, 0, 2, 2] : List Nat).count i) ∧
      (bincount [2, 0, 2, 2]).sum = ([2, 0, 2, 2] : List Nat).length) :=
  ⟨by decide, C10_bincount [2, 0, 2, 2] 2 (by decide)⟩

/-! ### C3: per-column sort, background exclusion, palette rows -/

/-- Reassembling three equal-length columns recovers each column through the
corresponding projection. -/
lemma cols_zip3 (a b c : List ℚ) (hab : a.length = b.length)
    (hac : a.length = c.length) :
    col0 (zip3 a b c) = a ∧ col1 (zip3 a b c) = b ∧ col2 (zip3 a b c) = c := by
  induction a generalizing b c with
  | nil =>
    cases b with
    | cons _ _ => simp at hab
    | nil =>
      cases c with
      | cons _ _ => simp at hac
      | nil => exact ⟨rfl, rfl, rfl⟩
  | cons x xs ih =>
    cases b with
    | nil => simp at hab
    | cons y ys =>
      cases c with
      | nil => simp at hac
      | cons z zs =>
        obtain ⟨h0, h1, h2⟩ := ih ys zs (by simpa using hab) (by simpa using hac)
        refine ⟨?_, ?_, ?_⟩
        · show x :: col0 (zip3 xs ys zs) = x :: xs
          rw [h0]
        · show y :: col1 (zip3 xs ys zs) = y :: ys
          rw [h1]
        · show z :: col2 (zip3 xs ys zs) = z :: zs
          rw [h2]

/-- In an ascending-sorted list the last element is a member and an upper
bound — the list's maximum. -/
lemma sorted_getLast?_max (l : List ℚ) (x : ℚ)
    (hs : List.Sorted (· ≤ ·) l) (hx : l.getLast? = some x) :
    x ∈ l ∧ ∀ v ∈ l, v ≤ x := by
  rw [List.getLast?_eq_getElem?] at hx
  have hne : l ≠ [] := by
    intro h
    subst h
    simp at hx
  have hlen : l.length - 1 < l.length := by
    cases l with
    | nil => exact absurd rfl hne
    | cons a t => simp
  have hxe : l.get ⟨l.length - 1, hlen⟩ = x := by
    rw [List.getElem?_eq_getElem hlen] at hx
    exact Option.some.inj hx
  constructor
  · rw [← hxe]
    exact List.get_mem l _ _
  · intro v hv
    obtain ⟨⟨k, hk⟩, rfl⟩ := List.mem_iff_get.mp hv
    rw [← hxe]
    exact hs.rel_get_of_le (by simp only [Fin.mk_le_mk]; omega)

/-- The three channel columns of `sortEveryColumn m` are the sorted columns
of `m`. -/
lemma cols_sortEveryColumn (m : List Color) :
    col0 (sortEveryColumn m) = (col0 m).insertionSort (· ≤ ·) ∧
    col1 (sortEveryColumn m) = (col1 m).insertionSort (· ≤ ·) ∧
    col2 (sortEveryColumn m) = (col2 m).insertionSort (· ≤ ·) := by
  unfold sortEveryColumn
  apply cols_zip3
  · rw [List.length_insertionSort (· ≤ ·), List.length_insertionSort (· ≤ ·)]
    simp [col0, col1]
  · rw [List.length_insertionSort (· ≤ ·), List.length_insertionSort (· ≤ ·)]
    simp [col0, col2]

/-- C3: after the ordering step each of the three channel columns is
independently sorted ascending; the last row `r` carries, in every channel,
that channel's maximum over the original centers; and the palette used to
build the strip consists of exactly the rows before the last — `rows - 1 =
clusterCount - 1` of them. -/
theorem C3_sorted_background_exclusion (centers : List Color) (r : Color)
    (hK : 2 ≤ centers.length)
    (hlast : (sortEveryColumn centers).getLast? = some r) :
    List.Sorted (· ≤ ·) (col0 (sortEveryColumn centers)) ∧
    List.Sorted (· ≤ ·) (col1 (sortEveryColumn centers)) ∧
    List.Sorted (· ≤ ·) (col2 (sortEveryColumn centers)) ∧
    (col0 centers).maximum = (r.1 : WithBot ℚ) ∧
    (col1 centers).maximum = (r.2.1 : WithBot ℚ) ∧
    (col2 centers).maximum = (r.2.2 : WithBot ℚ) ∧
    (∀ x y : Nat, paletteCells x y (sortEveryColumn centers) =
      ((sortEveryColumn centers).dropLast).map (solidMat x y)) ∧
    ((sortEveryColumn centers).dropLast).length = centers.length - 1 := by
  obtain ⟨h0, h1, h2⟩ := cols_sortEveryColumn centers
  have hs0 : List.Sorted (· ≤ ·) (col0 (sortEveryColumn centers)) := by
    rw [h0]
    exact List.sorted_insertionSort (· ≤ ·) _
  have hs1 : List.Sorted (· ≤ ·) (col1 (sortEveryColumn centers)) := by
    rw [h1]
    exact List.sorted_insertionSort (· ≤ ·) _
  have hs2 : List.Sorted (· ≤ ·) (col2 (sortEveryColumn centers)) := by
    rw [h2]
    exact List.sorted_insertionSort (· ≤ ·) _
  have hmax : ∀ (proj : Color → ℚ) (cols : List Color → List ℚ),
      (cols = col0 ∨ cols = col1 ∨ cols = col2) →
      cols (sortEveryColumn centers) = (cols centers).insertionSort (· ≤ ·) →
      List.Sorted (· ≤ ·) (cols (sortEveryColumn centers)) →
      (cols (sortEveryColumn centers)).getLast? = some (proj r) →
      (cols centers).maximum = (proj r : WithBot ℚ) := by
    intro proj cols _ hcols hsort hlastc
    obtain ⟨hmem, hub⟩ := sorted_getLast?_max _ _ hsort hlastc
    rw [hcols] at hmem hub
    rw [List.maximum_eq_coe_iff]
    constructor
    · exact (List.mem_insertionSort (· ≤ ·)).mp hmem
    · intro v hv
      exact hub v ((List.mem_insertionSort (· ≤ ·)).mpr hv)
  have hlast0 : (col0 (sortEveryColumn centers)).getLast? = some r.1 := by
    unfold col0
    rw [List.getLast?_map, hlast]
    rfl
  have hlast1 : (col1 (sortEveryColumn centers)).getLast? = some r.2.1 := by
    unfold col1
    rw [List.getLast?_map, hlast]
    rfl
  have hlast2 : (col2 (sortEveryColumn centers)).getLast? = some r.2.2 := by
    unfold col2
    rw [List.getLast?_map, hlast]
    rfl
  refine ⟨hs0, hs1, hs2,
    hmax (fun c => c.1) col0 (Or.inl rfl) h0 hs0 hlast0,
    hmax (fun c => c.2.1) col1 (Or.inr (Or.inl rfl)) h1 hs1 hlast1,
    hmax (fun c => c.2.2) col2 (Or.inr (Or.inr rfl)) h2 hs2 hlast2, ?_, ?_⟩
  · intro x y
    unfold paletteCells
    rw [List.dropLast_eq_take]
  · have hlen : (sortEveryColumn centers).length = centers.length := by
      have := congrArg List.length h0
      rw [List.length_insertionSort (· ≤ ·)] at this
      simpa [col0] using this
    rw [List.length_dropLast, hlen]

/-- Witness for C3 on the 2-row centers matrix [(3,1,2), (1,3,1)]: the
per-column sort yields [(1,1,1), (3,3,2)] with last row (3,3,2). -/
theorem C3_sorted_background_exclusion_witness :
    2 ≤ ([(3, 1, 2), (1, 3, 1)] : List Color).length ∧
    (sortEveryColumn [(3, 1, 2), (1, 3, 1)]).getLast? = some ((3, 3, 2) : Color) ∧
    (col0 ([(3, 1, 2), (1, 3, 1)] : List Color)).maximum = ((3 : ℚ) : WithBot ℚ) :=
  ⟨by decide, by decide,
   (C3_sorted_background_exclusion [(3, 1, 2), (1, 3, 1)] (3, 3, 2)
      (by decide) (by decide)).2.2.2.1⟩

/-! ### C5: strip dimensions equal the `setwin` footprint -/

/-- Summing a constant over a list multiplies it by the length. -/
lemma sum_map_const_nat {α : Type} (l : List α) (k : Nat) :
    (l.map (fun _ => k)).sum = l.length * k := by
  induction l with
  | nil => simp
  | cons a t ih =>
    simp only [List.map_cons, List.sum_cons, ih, List.length_cons]
    ring

/-- The first pixel row of a solid cell of positive height. -/
lemma solidMat_row0 (x y : Nat) (d : Color) :
    List.getD (solidMat (x + 1) y d) 0 [] = List.replicate y d := by
  rw [solidMat, List.replicate_succ]
  rfl

/-- Height of a vertical concatenation of solid cells: one `x` per cell. -/
lemma vconcat_solid_height (x y : Nat) (cs : List Color) :
    (vconcat (cs.map (solidMat x y))).height = cs.length * x := by
  unfold vconcat Mat.height
  rw [List.length_flatten, List.map_map]
  have hcomp : (List.length ∘ solidMat x y) = (fun _ : Color => x) := by
    funext d
    simp [solidMat]
  rw [hcomp, sum_map_const_nat]

/-- Width of a non-empty vertical concatenation of solid cells of positive
height: the common cell width `y`. -/
lemma vconcat_solid_width (x y : Nat) (c : Color) (cs : List Color)
    (hx : 0 < x) :
    (vconcat ((c :: cs).map (solidMat x y))).width = y := by
  cases x with
  | zero => omega
  | succ x' =>
    unfold vconcat Mat.width
    rw [List.map_cons, List.flatten_cons, solidMat, List.replicate_succ,
      List.cons_append, List.getD_cons_zero, List.length_replicate]

/-- Height of a non-empty horizontal concatenation of solid cells: the
common cell height `x`. -/
lemma hconcat_solid_height (x y : Nat) (c : Color) (cs : List Color) :
    (hconcat ((c :: cs).map (solidMat x y))).height = x := by
  rw [List.map_cons]
  simp [hconcat, Mat.height, solidMat]

/-- Width of a non-empty horizontal concatenation of solid cells of positive
height: one `y` per cell. -/
lemma hconcat_solid_width (x y : Nat) (c : Color) (cs : List Color)
    (hx : 0 < x) :
    (hconcat ((c :: cs).map (solidMat x y))).width = (c :: cs).length * y := by
  cases x with
  | zero => omega
  | succ x' =>
    rw [List.map_cons]
    simp only [hconcat]
    have hh : (solidMat (x' + 1) y c).height = x' + 1 := by
      simp [solidMat, Mat.height]
    unfold Mat.width
    rw [hh, List.range_succ_eq_map, List.map_cons, List.getD_cons_zero]
    rw [List.map_cons, List.flatten_cons, List.length_append,
      solidMat_row0 x' y c, List.length_replicate]
    rw [List.map_map, List.length_flatten, List.map_map]
    have hcomp : (List.length ∘ (fun n => List.getD n 0 []) ∘ solidMat (x' + 1) y) =
        (fun _ : Color => y) := by
      funext d
      show ((solidMat (x' + 1) y d).getD 0 []).length = y
      rw [solidMat_row0 x' y d, List.length_replicate]
    rw [hcomp, sum_map_const_nat, List.length_cons]
    ring

/-- C5: for any centers matrix with `clusterCount` rows and arbitrary color
values, the swatch strip built by `create_palette` has exactly the extents
computed by `setwin` from the configuration alone: when vertical, width
`color_w` and height `color_h * colors`; otherwise transposed. -/
theorem C5_strip_dimensions (iv : InitValues) (centers : List Color)
    (hc : iv.colors = iv.n_clusters - 1)
    (hrows : (centers.length : Int) = iv.n_clusters)
    (hK : 2 ≤ iv.n_clusters) (hw : 1 ≤ iv.color_w) (hh : 1 ≤ iv.color_h) :
    ((create_palette iv iv.vertical iv.reverse centers).width : Int) = (setwin iv).x ∧
    ((create_palette iv iv.vertical iv.reverse centers).height : Int) = (setwin iv).y := by
  have hlen : 2 ≤ centers.length := by
    omega
  have htake : centers.take (centers.length - 1) ≠ [] := by
    intro habs
    have := congrArg List.length habs
    rw [List.length_take] at this
    simp at this
    omega
  have hlentake : (centers.take (centers.length - 1)).length = centers.length - 1 := by
    rw [List.length_take]
    omega
  have hcastlen : ((centers.length - 1 : Nat) : Int) = iv.n_clusters - 1 := by
    omega
  have hwn : ((iv.color_w.toNat : Nat) : Int) = iv.color_w := Int.toNat_of_nonneg (by omega)
  have hhn : ((iv.color_h.toNat : Nat) : Int) = iv.color_h := Int.toNat_of_nonneg (by omega)
  have hwpos : 0 < iv.color_w.toNat := by omega
  have hhpos : 0 < iv.color_h.toNat := by omega
  unfold create_palette paletteCells
  cases hv : iv.vertical <;> cases hr : iv.reverse <;>
    simp only [Bool.false_eq_true, if_false, if_true, setwin, hv, hr]
  case false.false =>
    obtain ⟨c, cs, hcons⟩ := List.exists_cons_of_ne_nil htake
    rw [hcons]
    constructor
    · rw [hconcat_solid_width _ _ _ _ hwpos, ← hcons, hlentake]
      push_cast [hhn]
      rw [hcastlen, hc]
      ring
    · rw [hconcat_solid_height]
      exact hwn
  case false.true =>
    rw [← List.map_reverse]
    have htake' : (centers.take (centers.length - 1)).reverse ≠ [] := by
      simpa using htake
    obtain ⟨c, cs, hcons⟩ := List.exists_cons_of_ne_nil htake'
    rw [hcons]
    constructor
    · rw [hconcat_solid_width _ _ _ _ hwpos, ← hcons, List.length_reverse, hlentake]
      push_cast [hhn]
      rw [hcastlen, hc]
      ring
    · rw [hconcat_solid_height]
      exact hwn
  case true.false =>
    obtain ⟨c, cs, hcons⟩ := List.exists_cons_of_ne_nil htake
    rw [hcons]
    constructor
    · rw [vconcat_solid_width _ _ _ _ hhpos]
      exact hwn
    · rw [← hcons, vconcat_solid_height, hlentake]
      push_cast [hhn]
      rw [hcastlen, hc]
      ring
  case true.true =>
    rw [← List.map_reverse]
    have htake' : (centers.take (centers.length - 1)).reverse ≠ [] := by
      simpa using htake
    obtain ⟨c, cs, hcons⟩ := List.exists_cons_of_ne_nil htake'
    rw [hcons]
    constructor
    · rw [vconcat_solid_width _ _ _ _ hhpos]
      exact hwn
    · rw [← hcons, vconcat_solid_height, List.length_reverse, hlentake]
      push_cast [hhn]
      rw [hcastlen, hc]
      ring

/-- Witness for C5: a 2-cluster vertical configuration with 1×1 cells and a
2-row centers matrix; the strip is the 1×1 single visible cell, matching
`setwin`. -/
theorem C5_strip_dimensions_witness :
    (let iv : InitValues := { n_clusters := 2, resize := 120, win_w := 512, win_h := 512, color_w := 1, color_h := 1, colors := 1, path := "p", threshold := 99/100, vertical := true, reverse := true };
     iv.colors = iv.n_clusters - 1 ∧
     ((([(0, 0, 0), (1, 1, 1)] : List Color).length : Int) = iv.n_clusters) ∧
     ((create_palette iv iv.vertical iv.reverse [(0, 0, 0), (1, 1, 1)]).width : Int)
        = (setwin iv).x ∧
     ((create_palette iv iv.vertical iv.reverse [(0, 0, 0), (1, 1, 1)]).height : Int)
        = (setwin iv).y) :=
  ⟨by decide, by decide,
   C5_strip_dimensions _ [(0, 0, 0), (1, 1, 1)] (by decide) (by decide)
     (by decide) (by decide) (by decide)⟩

end FindingPalette
